import Mathlib

/-!
Verification development for `ibmon`, a small Go program that polls
InfiniBand port byte counters at a fixed interval, converts the deltas to
Gbps, and renders one row per port with two proportional bar graphs.

The Go source is embedded shallowly: machine `int64` arithmetic is modelled
on `ℤ` with an explicit twos-complement wrap, `float64` arithmetic on `ℚ`
(the claims compared here share the same expression shape on both sides, so
their equality is independent of rounding), fallible reads as `Option`.
-/

namespace Ibmon

/-! ## int64 model -/

/-- Twos-complement wrap of an integer into the signed 64-bit range,
modelling Go `int64` overflow semantics (Go wraps signed arithmetic). -/
def wrap64 (x : ℤ) : ℤ := (x + 2 ^ 63) % 2 ^ 64 - 2 ^ 63

/-! ## Go standard-library string models

These model the behaviour of the Go standard library functions the program
calls (`strings.Fields`, `strings.Replace` with `n = 1`, `strings.Contains`,
`strconv.ParseFloat`).  They are external collaborators of the repository,
modelled here from their documented behaviour on the inputs the program
feeds them (plain ASCII sysfs text). -/

/-- Whitespace recognised by `strings.Fields` (ASCII part of `unicode.IsSpace`). -/
def goIsSpace (c : Char) : Bool :=
  c = ' ' || c = '\t' || c = '\n' || c = '\r' || c = '\x0b' || c = '\x0c'

/-- Models `strings.Fields`: split around runs of whitespace, dropping
empty pieces. -/
def fields (s : String) : List String :=
  ((s.data.splitOnP goIsSpace).filter (fun w => !w.isEmpty)).map (fun w => String.mk w)

/-- Helper for `replaceFirst`: replace the first occurrence of `old`
(assumed nonempty) in a character list. -/
def replaceFirstAux : List Char → List Char → List Char → List Char
  | [], _, _ => []
  | c :: rest, old, new =>
    if old.isPrefixOf (c :: rest) then new ++ (c :: rest).drop old.length
    else c :: replaceFirstAux rest old new

/-- Models `strings.Replace(s, old, new, 1)`: replace the first occurrence
of `old` by `new` (when `old` is empty Go inserts `new` at the start). -/
def replaceFirst (s old new : String) : String :=
  if old.data.isEmpty then new ++ s
  else String.mk (replaceFirstAux s.data old.data new.data)

/-- Helper for `containsSub` over character lists. -/
def containsSubAux : List Char → List Char → Bool
  | [], pat => pat.isEmpty
  | c :: rest, pat => pat.isPrefixOf (c :: rest) || containsSubAux rest pat

/-- Models `strings.Contains s pat`. -/
def containsSub (s pat : String) : Bool := containsSubAux s.data pat.data

/-- Numeric value of a digit run. -/
def digitsVal (l : List Char) : ℕ :=
  l.foldl (fun acc c => 10 * acc + (c.toNat - '0'.toNat)) 0

/-- Helper for `parseFloat`: the exponent part (after `e`/`E`).  `sgn` is the
mantissa sign, `mantNum` the mantissa digits as an integer, `fracLen` the
number of fractional digits. -/
def parseFloatExp (sgn mantNum : ℤ) (fracLen : ℕ) (r : List Char) : Option ℚ :=
  let (eneg, r1) : Bool × List Char :=
    match r with
    | '+' :: t => (false, t)
    | '-' :: t => (true, t)
    | _ => (false, r)
  let ed := r1.takeWhile Char.isDigit
  let rest := r1.dropWhile Char.isDigit
  if ed.isEmpty || !rest.isEmpty then none
  else if eneg then some (mkRat (sgn * mantNum) (10 ^ fracLen * 10 ^ digitsVal ed))
  else some (mkRat (sgn * mantNum * 10 ^ digitsVal ed) (10 ^ fracLen))

/-- Models the decimal syntax of Go `strconv.ParseFloat` (optional sign,
digits with an optional fractional part, optional decimal exponent),
returning the parsed value as an exact rational.  Hexadecimal floats,
digit-group underscores and the `Inf`/`NaN` spellings are omitted: the
program only ever feeds it sysfs capability tokens such as `"400"`. -/
def parseFloat (s : String) : Option ℚ :=
  let l := s.data
  let (sgn, l1) : ℤ × List Char :=
    match l with
    | '+' :: r => (1, r)
    | '-' :: r => (-1, r)
    | _ => (1, l)
  let ip := l1.takeWhile Char.isDigit
  let l2 := l1.dropWhile Char.isDigit
  let (fp, l3) : List Char × List Char :=
    match l2 with
    | '.' :: r => (r.takeWhile Char.isDigit, r.dropWhile Char.isDigit)
    | _ => ([], l2)
  if ip.isEmpty && fp.isEmpty then none
  else
    let mantNum : ℤ := (digitsVal ip * 10 ^ fp.length + digitsVal fp : ℕ)
    match l3 with
    | [] => some (mkRat (sgn * mantNum) (10 ^ fp.length))
    | 'e' :: r => parseFloatExp sgn mantNum fp.length r
    | 'E' :: r => parseFloatExp sgn mantNum fp.length r
    | _ => none

/-! ## Rate parsing (`parseRate` in `main.go`) -/

/-- Embeds `parseRate` from `main.go`: split the capability string into
whitespace-separated fields; error (`none`) when fewer than two fields are
present, otherwise the result of parsing the first field as a float. -/
def parseRate (rateStr : String) : Option ℚ :=
  match fields rateStr with
  | f0 :: _ :: _ => parseFloat f0
  | _ => none

/-! ## Data model (`IBInterface`, `ifaceStatus`, `model` in `main.go`) -/

/-- Embeds the `IBInterface` struct: one monitored port on an adaptor. -/
structure IBInterface where
  adaptor : String
  port : String
  rxPath : String
  txPath : String
  ratePath : String
  prevRx : ℤ
  prevTx : ℤ
  maxGbps : ℚ
  rateStr : String
  deriving DecidableEq, Repr

/-- Embeds the `ifaceStatus` struct: an interface plus its last-computed
throughputs in Gbps. -/
structure IfaceStatus where
  iface : IBInterface
  rxValue : ℚ
  txValue : ℚ
  deriving DecidableEq, Repr

/-- Minimal model of the external `bubbles` viewport widget: dimensions,
scroll offset and the content last handed to `SetContent`. -/
structure Viewport where
  width : ℤ
  height : ℤ
  yOffset : ℤ
  content : String
  deriving DecidableEq, Repr

/-- Embeds the Bubble Tea `model` struct.  `interval` is the polling
interval in seconds (Go stores a `time.Duration` and divides by
`interval.Seconds()`; the claims here are about the value in seconds). -/
structure Model where
  statuses : List IfaceStatus
  interval : ℚ
  termWidth : ℤ
  vp : Viewport
  deriving DecidableEq, Repr

/-! ## Discovery-time capability handling (`getInterfaces` in `main.go`) -/

def ibBasePath : String := "/sys/class/infiniband"

def portDir (adaptor port : String) : String :=
  ibBasePath ++ "/" ++ adaptor ++ "/ports/" ++ port

def rxPathOf (adaptor port : String) : String :=
  portDir adaptor port ++ "/counters/port_rcv_data"

def txPathOf (adaptor port : String) : String :=
  portDir adaptor port ++ "/counters/port_xmit_data"

def ratePathOf (adaptor port : String) : String :=
  portDir adaptor port ++ "/rate"

/-- Embeds lines 119–130 of `main.go`: given the result of `readRate`
(`none` models a read error), produce the display string and parsed maximum
rate.  On a read error both keep their zero values (`""` and `0`); on a
parse error only `maxGbps` falls back to `0`. -/
def rateHandling (rateRead : Option String) : String × ℚ :=
  match rateRead with
  | none => ("", 0)
  | some rateFull =>
    let rateStr := replaceFirst rateFull "Gb/sec" "Gbps"
    match parseRate rateStr with
    | none => (rateStr, 0)
    | some v => (rateStr, v)

/-- Embeds the per-port body of `getInterfaces` (lines 92–144 of
`main.go`): the port is skipped (`none`) when either counter file is
missing or unreadable; a capability problem never excludes the port. -/
def discoverPort (adaptor port : String) (rxExists txExists : Bool)
    (rxRead txRead : Option ℤ) (rateRead : Option String) : Option IBInterface :=
  if !rxExists || !txExists then none
  else
    match rxRead, txRead with
    | some rx, some tx =>
      let p := rateHandling rateRead
      some ⟨adaptor, port, rxPathOf adaptor port, txPathOf adaptor port,
            ratePathOf adaptor port, rx, tx, p.2, p.1⟩
    | _, _ => none

/-- Embeds the `readRate` of the line-oriented variant
(`src/unnamed/part_000`): keep the first two fields and compact the unit. -/
def cliFormatRate (content : String) : String :=
  match fields content with
  | f0 :: f1 :: _ => replaceFirst (f0 ++ " " ++ f1) "Gb/sec" "Gbps"
  | _ => content

/-- Embeds lines 121–130 of `src/unnamed/part_000` (`main`): the port-rate
label is `"N/A"` when the rate file is absent, `"?"` when reading it fails,
otherwise the compacted rate text. -/
def cliPortRate (rateFileExists : Bool) (rateRead : Option String) : String :=
  if rateFileExists then
    match rateRead with
    | some content => cliFormatRate content
    | none => "?"
  else "N/A"

/-! ## Startup (`initialModel` in `main.go`)

`main` parses the `-interval` flag (default one second) with no validation
and aborts only when `initialModel` errors, which happens exactly when
discovery fails or yields no interfaces.  `initialModel` is embedded over
the discovered interface list (the success path of `getInterfaces`). -/

/-- Embeds `initialModel` (lines 175–199 of `main.go`): error (`none`) only
on an empty interface list; otherwise every status starts with zero rates
and a default 80×20 viewport. -/
def initialModel (interval : ℚ) (ifaces : List IBInterface) : Option Model :=
  if ifaces.isEmpty then none
  else
    some { statuses := ifaces.map (fun i => ⟨i, 0, 0⟩)
           interval := interval
           termWidth := 80
           vp := ⟨80, 20, 0, ""⟩ }

/-! ## Throughput sampling (tick branch of `model.Update`) -/

/-- Embeds the Gbps conversion of lines 288–289 of `main.go`:
`float64(diff) * 8 / 1e9 / interval.Seconds()`, over `ℚ`. -/
def gbps (diff : ℤ) (intervalSeconds : ℚ) : ℚ :=
  (diff : ℚ) * 8 / 1000000000 / intervalSeconds

/-- Embeds the per-interface tick body (lines 271–292 of `main.go`).  The
pair carries the two counter reads (`none` is a read error).  A failed read
leaves the status untouched; two successful reads replace the previous
counters and both rates together.  The `int64` subtraction wraps. -/
def tickUpdateOne (interval : ℚ) (reads : Option ℤ × Option ℤ)
    (s : IfaceStatus) : IfaceStatus :=
  match reads with
  | (some currRx, some currTx) =>
    let diffRx := wrap64 (currRx - s.iface.prevRx)
    let diffTx := wrap64 (currTx - s.iface.prevTx)
    { iface := { s.iface with prevRx := currRx, prevTx := currTx }
      rxValue := gbps diffRx interval
      txValue := gbps diffTx interval }
  | _ => s

/-- Helper for `tickStep`: the indexed loop over the status slice, reading
counters through the environment `env` (index `i` models the two file reads
for interface `i` on this tick). -/
def tickStepAux (interval : ℚ) (env : ℕ → Option ℤ × Option ℤ) (i : ℕ) :
    List IfaceStatus → List IfaceStatus
  | [] => []
  | s :: rest => tickUpdateOne interval (env i) s :: tickStepAux interval env (i + 1) rest

/-- Embeds the whole tick loop of `model.Update`. -/
def tickStep (interval : ℚ) (env : ℕ → Option ℤ × Option ℤ)
    (ss : List IfaceStatus) : List IfaceStatus :=
  tickStepAux interval env 0 ss

/-! ## Layout and rendering (`model.renderContent` in `main.go`) -/

/-- Go `fmt.Sprintf("%-10s", s)`: left-justify in a field of `n` runes. -/
def padRight (n : ℕ) (s : String) : String :=
  s ++ String.mk (List.replicate (n - s.length) ' ')

/-- Embeds the row-header construction (lines 208–211 of `main.go`):
`"adaptor:port"` padded to 10 runes, then the rate string in parentheses. -/
def headerOf (iface : IBInterface) : String :=
  padRight 10 (iface.adaptor ++ ":" ++ iface.port) ++ " (" ++ iface.rateStr ++ "): "

/-- `lipgloss.Width` of the header: plain text with no ANSI codes nor wide
runes, so it is the rune count. -/
def headerWidthOf (iface : IBInterface) : ℤ := (headerOf iface).length

/-- The fixed non-bar overhead of a row, line 217 of `main.go`: 19 runes of
RX decoration plus 22 of TX decoration. -/
def fixedOverhead : ℤ := 19 + 22

/-- Embeds lines 218–221 of `main.go`: the width left for the two bars,
floored at 10. -/
def availableWidth (termWidth headerWidth : ℤ) : ℤ :=
  let a := termWidth - headerWidth - fixedOverhead
  if a < 10 then 10 else a

/-- Embeds line 222 of `main.go`: each bar gets half of `available`,
integer-divided. -/
def barWidthOf (termWidth headerWidth : ℤ) : ℤ :=
  availableWidth termWidth headerWidth / 2

/-- Embeds the percentage computation of lines 224–235 of `main.go`: zero
unless `maxGbps > 0`, otherwise `value / maxGbps` clamped above at 1. -/
def pctOf (maxGbps value : ℚ) : ℚ :=
  if 0 < maxGbps then
    let p := value / maxGbps
    if 1 < p then 1 else p
  else 0

/-- Go `int(q)`: truncation toward zero (`Int.div` is T-division). -/
def truncInt (q : ℚ) : ℤ := Int.tdiv q.num q.den

/-- The percentage field, abstracting `fmt.Sprintf("%4d%%", int(p*100))`. -/
def fmtPctField (p : ℚ) : String := toString (truncInt (p * 100)) ++ "%"

/-- The throughput field, abstracting `fmt.Sprintf("%07.1f Gbps", v)`. -/
def fmtRateField (v : ℚ) : String := toString v.num ++ "/" ++ toString v.den ++ " Gbps"

/-- Abstraction of the external `bubbles` progress-bar view: a bar of the
given character width whose filled prefix is proportional to `pct` (the
widget gradient colouring is presentation only). -/
def barView (width : ℤ) (pct : ℚ) : String :=
  let w := width.toNat
  let filled := min (truncInt (pct * width)).toNat w
  String.mk (List.replicate filled '#' ++ List.replicate (w - filled) ' ')

/-- Embeds one iteration of the row loop in `renderContent`
(lines 205–254 of `main.go`). -/
def renderRow (termWidth : ℤ) (stat : IfaceStatus) : String :=
  let header := headerOf stat.iface
  let bw := barWidthOf termWidth (header.length : ℤ)
  let rxPct := pctOf stat.iface.maxGbps stat.rxValue
  let txPct := pctOf stat.iface.maxGbps stat.txValue
  header ++ "↑ " ++ barView bw rxPct ++ " " ++ fmtPctField rxPct ++ " "
    ++ fmtRateField stat.rxValue ++ "   ↓ " ++ barView bw txPct ++ " "
    ++ fmtPctField txPct ++ " " ++ fmtRateField stat.txValue

/-- Embeds `model.renderContent`: all rows, newline-terminated, then the
key-binding footer. -/
def renderContent (m : Model) : String :=
  String.join (m.statuses.map (fun st => renderRow m.termWidth st ++ "\n"))
    ++ "\n[q/ctrl+c to quit | ↑/↓ to scroll]"

/-! ## Update loop (`model.Update` in `main.go`) -/

/-- The Bubble Tea messages the program handles: the periodic tick (carrying
the per-interface counter reads it will perform), a window resize, and a key
press. -/
inductive Msg where
  | tick (env : ℕ → Option ℤ × Option ℤ)
  | windowSize (w h : ℤ)
  | key (k : String)

/-- Number of content lines, as the external viewport counts them. -/
def lineCount (s : String) : ℤ := ((s.data.splitOnP (fun c => c = '\n')).length : ℤ)

/-- Model of the external `bubbles` viewport `Update`: arrow keys scroll by
one line within bounds; other messages leave it unchanged. -/
def vpUpdate (vp : Viewport) (msg : Msg) : Viewport :=
  match msg with
  | .key k =>
    if k = "up" then { vp with yOffset := max 0 (vp.yOffset - 1) }
    else if k = "down" then
      { vp with yOffset := min (max 0 (lineCount vp.content - vp.height)) (vp.yOffset + 1) }
    else vp
  | _ => vp

/-- Embeds `model.Update` (lines 264–322 of `main.go`).  The tick branch
runs the sampling loop, refreshes the viewport content and falls through to
the trailing viewport update; the resize branch updates the dimensions and
content and returns early; quit keys return the model unchanged (with a
`tea.Quit` command); any other key is passed to the viewport twice, once in
the `default` case and once by the trailing update. -/
def updateModel (m : Model) (msg : Msg) : Model :=
  match msg with
  | .tick env =>
    let m1 := { m with statuses := tickStep m.interval env m.statuses }
    let m2 := { m1 with vp := { m1.vp with content := renderContent m1 } }
    { m2 with vp := vpUpdate m2.vp msg }
  | .windowSize w h =>
    let m1 := { m with termWidth := w, vp := { m.vp with width := w, height := h - 2 } }
    { m1 with vp := { m1.vp with content := renderContent m1 } }
  | .key k =>
    if k = "q" ∨ k = "ctrl+c" then m
    else
      let m1 := { m with vp := vpUpdate m.vp msg }
      { m1 with vp := vpUpdate m1.vp msg }

/-! ## Concrete fixtures -/

/-- A concrete discovered interface used to instantiate theorems. -/
def sampleIface : IBInterface :=
  ⟨"mlx5_0", "1", rxPathOf "mlx5_0" "1", txPathOf "mlx5_0" "1",
   ratePathOf "mlx5_0" "1", 0, 0, 400, "400 Gbps (4X NDR)"⟩

/-- The status of `sampleIface` right after `initialModel`. -/
def sampleStatus : IfaceStatus := ⟨sampleIface, 0, 0⟩

/-! ## Supporting lemmas -/

/-- A wrapped `int64` subtraction whose mathematical value is already in
the representable range is exact. -/
theorem wrap64_eq_self (d : ℤ) (h0 : 0 ≤ d) (h1 : d < 2 ^ 63) : wrap64 d = d := by
  unfold wrap64
  have : (d + 2 ^ 63) % 2 ^ 64 = d + 2 ^ 63 := Int.emod_eq_of_lt (by omega) (by omega)
  omega

/-! ## Claim theorems -/

/-- C1: on a tick with two successful counter reads, the computed
throughput for each direction equals `(curr - prev) * 8 / 1e9 / interval`
— for 64-bit counter values (non-negative `int64` readings, so the wrapped
machine subtraction is exact) with `curr ≥ prev` and a positive interval. -/
theorem tick_sample_matches_formula (s : IfaceStatus) (currRx currTx : ℤ) (interval : ℚ)
    (hrx0 : 0 ≤ s.iface.prevRx) (hrx1 : s.iface.prevRx ≤ currRx) (hrx2 : currRx < 2 ^ 63)
    (htx0 : 0 ≤ s.iface.prevTx) (htx1 : s.iface.prevTx ≤ currTx) (htx2 : currTx < 2 ^ 63)
    (hpos : 0 < interval) :
    (tickUpdateOne interval (some currRx, some currTx) s).rxValue
      = ((currRx - s.iface.prevRx : ℤ) : ℚ) * 8 / 1000000000 / interval ∧
    (tickUpdateOne interval (some currRx, some currTx) s).txValue
      = ((currTx - s.iface.prevTx : ℤ) : ℚ) * 8 / 1000000000 / interval := by
  constructor
  · show gbps (wrap64 (currRx - s.iface.prevRx)) interval = _
    rw [wrap64_eq_self _ (by omega) (by omega)]
    rfl
  · show gbps (wrap64 (currTx - s.iface.prevTx)) interval = _
    rw [wrap64_eq_self _ (by omega) (by omega)]
    rfl

/-- Witness for C1 at a concrete input. -/
theorem tick_sample_matches_formula_inst :
    (0 ≤ sampleStatus.iface.prevRx ∧ sampleStatus.iface.prevRx ≤ 125
      ∧ (125 : ℤ) < 2 ^ 63 ∧ 0 < (1 : ℚ)) ∧
    (tickUpdateOne 1 (some 125, some 250) sampleStatus).rxValue
      = ((125 - sampleStatus.iface.prevRx : ℤ) : ℚ) * 8 / 1000000000 / 1 ∧
    (tickUpdateOne 1 (some 125, some 250) sampleStatus).txValue
      = ((250 - sampleStatus.iface.prevTx : ℤ) : ℚ) * 8 / 1000000000 / 1 :=
  ⟨⟨by decide, by decide, by decide, one_pos⟩,
   tick_sample_matches_formula sampleStatus 125 250 1 (by decide) (by decide)
     (by decide) (by decide) (by decide) (by decide) one_pos⟩

/-- C2 counterexample: with `max_rate = 1` and a rate of `-1` (a negative
delta after a counter reset), the rendered percentage is `-1`, not
`clamp(-1, 0, 1) = 0` — there is no lower clamp, so the claimed `[0, 1]`
bound fails for negative rates. -/
theorem pct_negative_rate_escapes_clamp :
    pctOf 1 (-1) = -1 ∧ pctOf 1 (-1) < 0 := by
  have h : pctOf 1 (-1) = -1 := by
    simp only [pctOf]
    norm_num
  exact ⟨h, by rw [h]; norm_num⟩

/-- C2 amended: when `max_rate > 0` the percentage is `min(rate/max_rate, 1)`
— clamped above only, hence `≤ 1` always and in `[0, 1]` exactly when the
rate is non-negative; when `max_rate ≤ 0` (in particular `max_rate = 0`) it
is exactly `0`. -/
theorem pct_upper_clamp_only (maxG v : ℚ) :
    (0 < maxG →
      pctOf maxG v = min (v / maxG) 1 ∧
      pctOf maxG v ≤ 1 ∧
      (0 ≤ v → 0 ≤ pctOf maxG v ∧ pctOf maxG v ≤ 1)) ∧
    (¬ 0 < maxG → pctOf maxG v = 0) := by
  constructor
  · intro h
    have hval : pctOf maxG v = min (v / maxG) 1 := by
      simp only [pctOf, if_pos h]
      by_cases hp : 1 < v / maxG
      · rw [if_pos hp, min_eq_right hp.le]
      · rw [if_neg hp, min_eq_left (le_of_not_lt hp)]
    refine ⟨hval, by rw [hval]; exact min_le_right _ _, fun hv => ?_⟩
    rw [hval]
    exact ⟨le_min (div_nonneg hv h.le) one_pos.le, min_le_right _ _⟩
  · intro h
    simp only [pctOf, if_neg h]

/-- Witness for the amended C2 theorem at concrete inputs. -/
theorem pct_upper_clamp_only_inst :
    (0 : ℚ) < 2 ∧ pctOf 2 1 = min ((1 : ℚ) / 2) 1 ∧ pctOf 0 5 = 0 :=
  ⟨by norm_num, ((pct_upper_clamp_only 2 1).1 (by norm_num)).1,
   (pct_upper_clamp_only 0 5).2 (by norm_num)⟩

/-- C3 counterexample: startup accepts a zero (and a negative) polling
interval — `initialModel` succeeds and the sampling loop starts, so a
non-positive interval is never rejected. -/
theorem zero_interval_startup_succeeds :
    (initialModel 0 [sampleIface]).isSome = true ∧
    (initialModel (-1) [sampleIface]).isSome = true :=
  ⟨rfl, rfl⟩

/-- C3 amended: the startup path performs no interval validation at all —
initialization succeeds for every interval value (zero and negative
included) precisely when discovery yields at least one interface, and the
unvalidated interval is what the per-tick rate computation later divides
by. -/
theorem startup_ignores_interval_sign (interval : ℚ) (ifaces : List IBInterface) :
    (initialModel interval ifaces).isSome = true ↔ ifaces ≠ [] := by
  unfold initialModel
  cases ifaces <;> simp

/-- Witness for the amended C3 theorem at a concrete input. -/
theorem startup_ignores_interval_sign_inst :
    ([sampleIface] ≠ ([] : List IBInterface)) ∧
    (initialModel (-2) [sampleIface]).isSome = true :=
  ⟨by simp, (startup_ignores_interval_sign (-2) [sampleIface]).mpr (by simp)⟩

/-- C4 counterexample: at terminal width 65 and header width 14 the
remaining budget is exactly 10 (the floor is not even engaged) and each bar
gets `10 / 2 = 5` characters — the claimed 10-character minimum per bar is
false; the floor applies to the combined two-bar budget. -/
theorem bar_width_five_at_floor :
    barWidthOf 65 14 = 5 ∧ ¬ (10 : ℤ) ≤ barWidthOf 65 14 := by
  constructor <;> decide

/-- C4 amended: each computed bar width is at least 5 characters (the
10-character floor applies to the combined budget `available`, each bar
getting its integer half), and whenever the floor is not engaged
(`terminal_width - header_width - 41 ≥ 10`) the two bar widths plus header
width plus the fixed overhead 41 fit within the terminal width. -/
theorem bar_width_bounds (tw hw : ℤ) :
    5 ≤ barWidthOf tw hw ∧
    (10 ≤ tw - hw - fixedOverhead →
      2 * barWidthOf tw hw + hw + fixedOverhead ≤ tw) := by
  have ha : 10 ≤ availableWidth tw hw := by
    simp only [availableWidth]
    split <;> omega
  constructor
  · unfold barWidthOf
    omega
  · intro h
    unfold fixedOverhead at h
    have hav : availableWidth tw hw = tw - hw - 41 := by
      simp only [availableWidth, fixedOverhead]
      split <;> omega
    unfold barWidthOf fixedOverhead
    rw [hav]
    omega

/-- Witness for the amended C4 theorem at a concrete input. -/
theorem bar_width_bounds_inst :
    ((10 : ℤ) ≤ 100 - 10 - fixedOverhead) ∧
    2 * barWidthOf 100 10 + 10 + fixedOverhead ≤ 100 :=
  ⟨by decide, (bar_width_bounds 100 10).2 (by decide)⟩

/-- The tick loop preserves the number of statuses, from any start index. -/
theorem tickStepAux_length (interval : ℚ) (env : ℕ → Option ℤ × Option ℤ)
    (ss : List IfaceStatus) : ∀ i0, (tickStepAux interval env i0 ss).length = ss.length := by
  induction ss with
  | nil => intro i0; rfl
  | cons s rest ih =>
    intro i0
    simpa [tickStepAux] using ih (i0 + 1)

/-- The tick loop acts pointwise: entry `i` of the result depends only on
the reads for index `i0 + i` and the old entry `i`. -/
theorem tickStepAux_get (interval : ℚ) (env : ℕ → Option ℤ × Option ℤ) :
    ∀ (ss : List IfaceStatus) (i0 i : ℕ) (h : i < ss.length)
      (h2 : i < (tickStepAux interval env i0 ss).length),
      (tickStepAux interval env i0 ss).get ⟨i, h2⟩
        = tickUpdateOne interval (env (i0 + i)) (ss.get ⟨i, h⟩) := by
  intro ss
  induction ss with
  | nil => intro i0 i h h2; exact absurd h (Nat.not_lt_zero i)
  | cons s rest ih =>
    intro i0 i h h2
    cases i with
    | zero => rfl
    | succ n =>
      have hn : n < rest.length := Nat.lt_of_succ_lt_succ h
      have hn2 : n < (tickStepAux interval env (i0 + 1) rest).length := by
        rw [tickStepAux_length]
        exact hn
      have := ih (i0 + 1) n hn hn2
      have hidx : i0 + 1 + n = i0 + (n + 1) := by omega
      rw [hidx] at this
      simpa [tickStepAux] using this

/-- C5: the tick loop is per-interface atomic and isolated — it preserves
the list length, entry `i` of the result is a function of only the reads
for interface `i` and its own previous state, a failed read (either
counter) leaves the status exactly as it was, and two successful reads
replace the previous counters and both rates together in one step. -/
theorem tick_per_iface_atomic (interval : ℚ) (env : ℕ → Option ℤ × Option ℤ)
    (ss : List IfaceStatus) :
    (tickStep interval env ss).length = ss.length ∧
    (∀ (i : ℕ) (h : i < ss.length) (h2 : i < (tickStep interval env ss).length),
      (tickStep interval env ss).get ⟨i, h2⟩
        = tickUpdateOne interval (env i) (ss.get ⟨i, h⟩)) ∧
    (∀ (s : IfaceStatus) (p : Option ℤ × Option ℤ),
      p.1 = none ∨ p.2 = none → tickUpdateOne interval p s = s) ∧
    (∀ (s : IfaceStatus) (rx tx : ℤ),
      tickUpdateOne interval (some rx, some tx) s =
        { iface := { s.iface with prevRx := rx, prevTx := tx }
          rxValue := gbps (wrap64 (rx - s.iface.prevRx)) interval
          txValue := gbps (wrap64 (tx - s.iface.prevTx)) interval }) := by
  refine ⟨tickStepAux_length interval env ss 0, ?_, ?_, fun s rx tx => rfl⟩
  · intro i h h2
    simpa using tickStepAux_get interval env ss 0 i h h2
  · rintro s ⟨p1, p2⟩ (h | h) <;> subst h
    · cases p2 <;> rfl
    · cases p1 <;> rfl

/-- Witness for C5 at concrete inputs: a tick whose RX read fails leaves
the status untouched; one with both reads successful replaces everything
together. -/
theorem tick_per_iface_atomic_inst :
    tickUpdateOne 1 (none, some 5) sampleStatus = sampleStatus ∧
    tickUpdateOne 1 (some 125, some 250) sampleStatus =
      { iface := { sampleStatus.iface with prevRx := 125, prevTx := 250 }
        rxValue := gbps (wrap64 (125 - sampleStatus.iface.prevRx)) 1
        txValue := gbps (wrap64 (250 - sampleStatus.iface.prevTx)) 1 } :=
  ⟨(tick_per_iface_atomic 1 (fun _ => (none, some 5)) [sampleStatus]).2.2.1
      sampleStatus (none, some 5) (Or.inl rfl),
   (tick_per_iface_atomic 1 (fun _ => (none, some 5)) [sampleStatus]).2.2.2
      sampleStatus 125 250⟩

/-- C6: parsing the capability string `"400 Gb/sec (4X NDR)"` yields a
maximum rate of exactly 400, the display label no longer contains
`"Gb/sec"` (it is rewritten to the compact `"Gbps"` form), and the rewrite
does not change the parsed numeric value. -/
theorem capability_400_ndr_parses :
    rateHandling (some "400 Gb/sec (4X NDR)") = ("400 Gbps (4X NDR)", 400) ∧
    containsSub "400 Gbps (4X NDR)" "Gb/sec" = false ∧
    parseRate "400 Gb/sec (4X NDR)" = some 400 ∧
    parseRate "400 Gbps (4X NDR)" = some 400 := by
  refine ⟨by decide, by decide, by decide, by decide⟩

/-- C7: capability parsing errors exactly when the string has fewer than
two whitespace-separated fields or the first field does not parse as a
floating-point number; in particular `"garbage"` fails. -/
theorem parse_rate_error_iff :
    (∀ s : String, parseRate s = none ↔
      ((fields s).length < 2 ∨ parseFloat (fields s).headI = none)) ∧
    parseRate "garbage" = none := by
  constructor
  · intro s
    rcases hf : fields s with - | ⟨f0, rest⟩
    · simp [parseRate, hf]
    · rcases rest with - | ⟨f1, rest2⟩
      · simp [parseRate, hf]
      · simp [parseRate, hf, List.headI]
  · decide

/-- C8 counterexample: when the capability read fails, the TUI variant
(`main.go`) leaves the display label as the empty string, not the claimed
`"N/A"` or `"?"` sentinel. -/
theorem missing_rate_label_empty :
    (rateHandling none).1 = "" ∧
    ¬ ((rateHandling none).1 = "N/A" ∨ (rateHandling none).1 = "?") := by
  constructor <;> decide

/-- C8 amended: an absent or unreadable capability source never excludes an
interface and never propagates an error — the port is still discovered with
`max_rate = 0`; the label is the empty string in the TUI variant, while the
line-oriented variant labels an absent rate file `"N/A"` and a failed rate
read `"?"`. -/
theorem missing_rate_degrades_gracefully (adaptor port : String) (rx tx : ℤ) :
    discoverPort adaptor port true true (some rx) (some tx) none
      = some ⟨adaptor, port, rxPathOf adaptor port, txPathOf adaptor port,
              ratePathOf adaptor port, rx, tx, 0, ""⟩ ∧
    cliPortRate false none = "N/A" ∧
    cliPortRate false (some "400 Gb/sec (4X NDR)") = "N/A" ∧
    cliPortRate true none = "?" :=
  ⟨rfl, rfl, rfl, rfl⟩

/-- C9: a window-resize message and a key message (scroll, quit, or any
other key) leave the interface-status list — every identifier, previous
counter, maximum rate and computed rate — exactly unchanged; they only
touch the viewport and terminal-width state. -/
theorem resize_scroll_preserve_ifaces (m : Model) (w h : ℤ) (k : String) :
    (updateModel m (Msg.windowSize w h)).statuses = m.statuses ∧
    (updateModel m (Msg.key k)).statuses = m.statuses := by
  refine ⟨rfl, ?_⟩
  simp only [updateModel]
  split <;> rfl

/-- The rendered percentage of a zero rate is zero for every maximum. -/
theorem pctOf_zero_rate (g : ℚ) : pctOf g 0 = 0 := by
  simp only [pctOf]
  split
  · rw [zero_div]
    norm_num
  · rfl

/-- C10: after a successful `initialModel`, every interface status carries
`rx_rate = tx_rate = 0`, so the first render shows zero throughput and a
zero percentage for every interface, whatever the initial counters were. -/
theorem initial_rates_zero (interval : ℚ) (ifaces : List IBInterface) (m : Model)
    (hm : initialModel interval ifaces = some m) :
    ∀ s ∈ m.statuses, s.rxValue = 0 ∧ s.txValue = 0 ∧
      pctOf s.iface.maxGbps s.rxValue = 0 ∧ pctOf s.iface.maxGbps s.txValue = 0 := by
  intro s hs
  unfold initialModel at hm
  by_cases he : ifaces.isEmpty
  · rw [if_pos he] at hm
    cases hm
  · rw [if_neg he] at hm
    injection hm with hm
    subst hm
    rcases List.mem_map.mp hs with ⟨i, -, rfl⟩
    exact ⟨rfl, rfl, pctOf_zero_rate _, pctOf_zero_rate _⟩

/-- Witness for C10 at a concrete input. -/
theorem initial_rates_zero_inst :
    sampleStatus.rxValue = 0 ∧ sampleStatus.txValue = 0 ∧
    pctOf sampleStatus.iface.maxGbps sampleStatus.rxValue = 0 ∧
    pctOf sampleStatus.iface.maxGbps sampleStatus.txValue = 0 :=
  initial_rates_zero 1 [sampleIface]
    { statuses := [sampleStatus], interval := 1, termWidth := 80, vp := ⟨80, 20, 0, ""⟩ }
    rfl sampleStatus (by simp)

end Ibmon
